import Mathlib

/-!
Verification of the ChatRecommend core against its design description.

Strings are modelled at the rune level as `List Char`, matching the Go
code's `[]rune` conversions.  The persistence store is modelled as an
association list, GORM reads/writes as pure lookups/updates on it.
Machine integers (`int`, `int64`) are modelled as `Int`.
-/

namespace ChatRecommend

/-! ### Context assembler (internal/context/context.go) -/

/-- Whether `marker` occurs at the head of `s` (rune-for-rune comparison). -/
def startsWithL : List Char → List Char → Bool
  | [], _ => true
  | _ :: _, [] => false
  | p :: ps, c :: cs => p == c && startsWithL ps cs

/-- Rune index of the first occurrence of `marker` in `s`, as `strings.Index`
computes it.  `strings.Index` returns a byte offset, but the offset of a
match always lies on a rune boundary, so slicing the rune list at the rune
index of the match is exactly what `context[:historyStart]` yields. -/
def findMarker (marker : List Char) : List Char → Option Nat
  | [] => if startsWithL marker [] then some 0 else none
  | c :: cs =>
    if startsWithL marker (c :: cs) then some 0
    else (findMarker marker cs).map (fun j => j + 1)

/-- The history-section header searched for by `truncateContext`. -/
def historyHeader : List Char := "=== 近期对话历史 ===".data

/-- The truncation notice appended by `truncateContext`. -/
def truncNotice : List Char := "\n[上下文已截断]".data

/-- The ellipsis appended when no history section exists. -/
def dots3 : List Char := "...".data

/-- `truncateContext` from internal/context/context.go lines 120-156,
translated rune-for-rune (Go slices `[]rune` for all length arithmetic). -/
def truncateContext (context : List Char) (maxLength : Nat) : List Char :=
  if context.length ≤ maxLength then context
  else
    match findMarker historyHeader context with
    | none =>
      if maxLength < context.length then context.take maxLength ++ dots3 else context
    | some historyStart =>
      if (maxLength : Int) - ((context.take historyStart).length : Int) - 100 ≤ 0 then
        context.take historyStart ++ truncNotice
      else if ((context.drop historyStart).length : Int) >
          (maxLength : Int) - ((context.take historyStart).length : Int) - 100 then
        (context.take historyStart ++
          (context.drop historyStart).take
            ((maxLength : Int) - ((context.take historyStart).length : Int) - 100).toNat) ++
          truncNotice
      else context.take historyStart ++ context.drop historyStart

/-! ### Data model (internal/models/models.go) -/

/-- A chat message; only the fields the core algorithms read are kept.
`content` is the rune sequence of the message text. -/
structure Message where
  senderID : String
  content : List Char
deriving DecidableEq

/-- The stored per-conversation summary record. Timestamps are modelled as
`Int` nanoseconds. -/
structure Summary where
  conversationID : Nat
  prompt : String
  keyInfo : String
  lastMessageCount : Int
  lastUpdatedAt : Int
  version : Int
deriving DecidableEq

/-! ### Summary scheduler (internal/summary/summary.go, src/unnamed/part_001) -/

/-- `config.SummaryConfig`, restricted to the fields the scheduler reads. -/
structure SummaryConfig where
  autoUpdate : Bool
  updateThresholdMessages : Int
  updateThresholdHours : Int

/-- Nanoseconds per hour: `time.Duration(hours) * time.Hour`. -/
def nsPerHour : Int := 3600000000000

/-- Lookup of a summary row by conversation id. -/
def getSummaryStore : List (Nat × Summary) → Nat → Option Summary
  | [], _ => none
  | (c, s) :: rest, cid => if c = cid then some s else getSummaryStore rest cid

/-- Upsert of a summary row by conversation id. -/
def putSummary : List (Nat × Summary) → Nat → Summary → List (Nat × Summary)
  | [], cid, s => [(cid, s)]
  | (c, t) :: rest, cid, s =>
    if c = cid then (cid, s) :: rest else (c, t) :: putSummary rest cid s

/-- `GetOrCreateSummary`: return the stored row, or lazily create the empty
one (`Prompt ""`, `KeyInfo "[]"`, count 0, version 1). -/
def GetOrCreateSummary (store : List (Nat × Summary)) (cid : Nat) (now : Int) :
    Summary × List (Nat × Summary) :=
  match getSummaryStore store cid with
  | some s => (s, store)
  | none =>
    let s : Summary :=
      { conversationID := cid
        prompt := ""
        keyInfo := "[]"
        lastMessageCount := 0
        lastUpdatedAt := now
        version := 1 }
    (s, putSummary store cid s)

/-- `ShouldUpdateSummary`: false when auto-update is off, else the count
threshold OR the elapsed-hours threshold triggers. `now - s.lastUpdatedAt`
models `time.Since(summary.LastUpdatedAt)` in nanoseconds. -/
def ShouldUpdateSummary (cfg : SummaryConfig) (s : Summary)
    (currentMessageCount now : Int) : Bool :=
  if !cfg.autoUpdate then false
  else if currentMessageCount - s.lastMessageCount ≥ cfg.updateThresholdMessages then true
  else if now - s.lastUpdatedAt ≥ cfg.updateThresholdHours * nsPerHour then true
  else false

/-- The summarization provider `LLMInterface.GenerateSummary`: given the
message list and the existing summary, either a (prompt, keyInfo) pair or
an error. -/
def SummaryProvider : Type :=
  List Message → Summary → Except String (String × String)

/-- `UpdateSummary`: fetch (or lazily create) the row, call the provider,
and on success overwrite prompt/keyInfo/count/timestamp and bump the
version; on provider error return the error with the store untouched
beyond the get-or-create step.  The database `Save` is modelled as the
pure `putSummary`. -/
def UpdateSummary (llm : SummaryProvider) (store : List (Nat × Summary))
    (cid : Nat) (msgs : List Message) (now : Int) :
    List (Nat × Summary) × Option String :=
  let got := GetOrCreateSummary store cid now
  match llm msgs got.1 with
  | Except.error e => (got.2, some e)
  | Except.ok (prompt, keyInfo) =>
    let s2 : Summary :=
      { got.1 with
        prompt := prompt
        keyInfo := keyInfo
        lastMessageCount := (msgs.length : Int)
        lastUpdatedAt := now
        version := got.1.version + 1 }
    (putSummary got.2 cid s2, none)

/-! ### Style engine (internal/style/style.go) -/

/-- `config.StyleConfig`, restricted to the fields the engine reads. -/
structure StyleConfig where
  enabled : Bool
  updateThresholdMessages : Int

/-- Split a rune sequence at every rune satisfying `p`, keeping empty
segments, as `strings.Split` does for a one-rune separator: the result
always has (number of separators + 1) segments. -/
def splitOnPred (p : Char → Bool) : List Char → List (List Char)
  | [] => [[]]
  | c :: cs =>
    match splitOnPred p cs with
    | [] => [[c]]
    | seg :: rest => if p c then [] :: seg :: rest else (c :: seg) :: rest

/-- The whitespace test of `strings.Fields` / `unicode.IsSpace`, modelled on
the ASCII whitespace set (the messages analysed contain no exotic Unicode
space separators, which `unicode.IsSpace` would also accept). -/
def isGoSpace (c : Char) : Bool :=
  c == ' ' || c == '\t' || c == '\n' || c == '\x0b' || c == '\x0c' || c == '\r'

/-- `strings.Fields`: whitespace-delimited tokens, empties dropped. -/
def goFields (s : List Char) : List (List Char) :=
  (splitOnPred isGoSpace s).filter (fun w => !w.isEmpty)

/-- The sentence separator used by `analyzeStyle` (the Chinese full stop). -/
def sentenceSep : Char := '。'

/-- The `totalLength` accumulator of `analyzeStyle`: the rune lengths of the
non-empty segments of each message split at the sentence separator. -/
def sentenceTotalLength (msgs : List Message) : Nat :=
  (msgs.map (fun m =>
    ((((splitOnPred (fun c => c == sentenceSep) m.content).filter
        (fun s => !s.isEmpty)).map List.length)).sum)).sum

/-- The `sentenceCount` accumulator of `analyzeStyle`: the number of
segments (empty ones included) of each message split at the separator. -/
def sentenceCount (msgs : List Message) : Nat :=
  (msgs.map (fun m => (splitOnPred (fun c => c == sentenceSep) m.content).length)).sum

/-- The emoji test of `analyzeStyle`: code point in `[0x1F300, 0x1F9FF]`. -/
def isEmojiRune (c : Char) : Bool :=
  0x1F300 ≤ c.toNat && c.toNat ≤ 0x1F9FF

/-- Total emoji runes over all messages. -/
def emojiCount (msgs : List Message) : Nat :=
  (msgs.map (fun m => (m.content.filter isEmojiRune).length)).sum

/-- Total runes over all messages (`totalChars`). -/
def totalChars (msgs : List Message) : Nat :=
  (msgs.map (fun m => m.content.length)).sum

/-- The fixed punctuation set tallied by `analyzeStyle`. -/
def punctuationSet : List Char := "，。！？、；：".data

/-- Bump the tally of key `c` in a first-seen-ordered association list. -/
def bumpChar : List (Char × Nat) → Char → List (Char × Nat)
  | [], c => [(c, 1)]
  | (x, n) :: rest, c =>
    if x = c then (x, n + 1) :: rest else (x, n) :: bumpChar rest c

/-- Punctuation tallies over all messages.  Go stores them in a map; the
model uses an association list in first-seen order. -/
def punctuationCounts (msgs : List Message) : List (Char × Nat) :=
  msgs.foldl (fun acc m =>
    m.content.foldl (fun a c => if punctuationSet.contains c then bumpChar a c else a) acc) []

/-- Bump the tally of word `w` in a first-seen-ordered association list. -/
def bumpWord : List (List Char × Nat) → List Char → List (List Char × Nat)
  | [], w => [(w, 1)]
  | (x, n) :: rest, w =>
    if x = w then (x, n + 1) :: rest else (x, n) :: bumpWord rest w

/-- The `wordFreq` map of `analyzeStyle`: whitespace-delimited tokens of
rune length ≥ 2, frequency-counted.  Go iterates a map in unspecified
order; the model fixes first-insertion order. -/
def wordFreq (msgs : List Message) : List (List Char × Nat) :=
  msgs.foldl (fun acc m =>
    (goFields m.content).foldl
      (fun a w => if w.length ≥ 2 then bumpWord a w else a) acc) []

/-- The count stored at position `j` of the working array (0 when out of
range, which the loops below never exercise). -/
def countAt (ws : List (List Char × Nat)) (j : Nat) : Nat :=
  ((ws.get? j).map Prod.snd).getD 0

/-- The inner selection loop of `getTopN`: index of the maximum count in
positions `i+1 .. len-1`, starting from candidate `i`; a later element
wins only with a strictly greater count. -/
def maxIdxFrom (ws : List (List Char × Nat)) (i : Nat) : Nat :=
  (List.range' (i + 1) (ws.length - (i + 1))).foldl
    (fun m j => if countAt ws j > countAt ws m then j else m) i

/-- Swap the elements at positions `i` and `j` (identity out of range). -/
def swapL (ws : List α) (i j : Nat) : List α :=
  match ws.get? i, ws.get? j with
  | some a, some b => (ws.set i b).set j a
  | _, _ => ws

/-- The outer loop of `getTopN`: Go's `for i := 0; i < len(words)-1 && i < n; i++`
with the `i < n` bound realised by the fuel argument (fuel starts at `n` and
an iteration at loop counter `i` runs with fuel `n - i > 0`).  Each pass
swaps the maximum of the tail into position `i` and records it. -/
def getTopNGo : Nat → Nat → List (List Char × Nat) → List (List Char × Nat) →
    List (List Char × Nat)
  | 0, _, _, res => res
  | Nat.succ fuel, i, ws, res =>
    if i + 1 < ws.length then
      let ws2 := swapL ws i (maxIdxFrom ws i)
      match ws2.get? i with
      | some e => getTopNGo fuel (i + 1) ws2 (res ++ [e])
      | none => res
    else res

/-- `getTopN` from internal/style/style.go lines 280-307.  Go returns a
map; the model returns the recorded (word, count) pairs in the order the
loop inserts them (descending count). -/
def getTopN (wf : List (List Char × Nat)) (n : Nat) : List (List Char × Nat) :=
  getTopNGo n 0 wf []

/-- Average sentence length: `totalLength / sentenceCount` when the latter
is positive, the zero value otherwise.  Go computes this in `float64`; the
model uses exact rationals (integer operands below 2^53 divide exactly
enough for every comparison the code performs). -/
def sentenceLengthOf (msgs : List Message) : ℚ :=
  if 0 < sentenceCount msgs then
    (sentenceTotalLength msgs : ℚ) / (sentenceCount msgs : ℚ)
  else 0

/-- Emoji usage: `emojiCount / totalChars * 100` when any rune exists. -/
def emojiUsageOf (msgs : List Message) : ℚ :=
  if 0 < totalChars msgs then
    (emojiCount msgs : ℚ) / (totalChars msgs : ℚ) * 100
  else 0

/-- The tone heuristic of `analyzeStyle` lines 249-256: strict `<` and `>`
comparisons, "casual" before "formal" before the "friendly" default. -/
def classifyTone (sentenceLength emojiUsage : ℚ) : String :=
  if sentenceLength < 10 ∧ emojiUsage > 2 then "casual"
  else if sentenceLength > 30 then "formal"
  else "friendly"

/-- The feature bundle `StyleFeatures`.  `vocabulary` and `punctuation` are
Go maps, modelled as association lists. -/
structure StyleFeatures where
  vocabulary : List (List Char × Nat)
  sentenceLength : ℚ
  emojiUsage : ℚ
  tone : String
  punctuation : List (Char × Nat)
  commonPhrases : List (List Char)
deriving DecidableEq

/-- `analyzeStyle` from internal/style/style.go lines 179-259.  The Go
function accumulates all statistics in one pass over the messages; the
model names each independent accumulation separately.  `CommonPhrases` is
never populated by the source. -/
def analyzeStyle (msgs : List Message) : StyleFeatures :=
  { vocabulary := getTopN (wordFreq msgs) 10
    sentenceLength := sentenceLengthOf msgs
    emojiUsage := emojiUsageOf msgs
    tone := classifyTone (sentenceLengthOf msgs) (emojiUsageOf msgs)
    punctuation := punctuationCounts msgs
    commonPhrases := [] }

/-- Rendering of `%.1f` for a non-negative rational: one digit after the
point.  Go's `fmt` rounds half to even; the model rounds half up, a
difference only at exact half-tenths that no theorem below depends on. -/
def formatTenths (q : ℚ) : String :=
  let n : Int := ⌊q * 10 + 1 / 2⌋
  let m : Nat := n.toNat
  toString (m / 10) ++ "." ++ toString (m % 10)

/-- `generateDescription` from internal/style/style.go lines 262-277. -/
def generateDescription (f : StyleFeatures) : String :=
  "语气：" ++ f.tone ++ "，" ++
  "平均句子长度：" ++ formatTenths f.sentenceLength ++ "字，" ++
  (if f.emojiUsage > 2 then "经常使用表情符号，" else "") ++
  (if f.commonPhrases.length > 0 then
    "常用短语：" ++
      String.intercalate "、"
        ((f.commonPhrases.take (min 3 f.commonPhrases.length)).map
          (fun w => String.mk w))
  else "")

/-- The stored per-(conversation, user) style row. -/
structure Style where
  conversationID : Nat
  userID : String
  features : StyleFeatures
  description : String
  lastMessageCount : Int
  lastUpdatedAt : Int
deriving DecidableEq

/-- The zero feature bundle, i.e. the `Features "{}"` of a fresh row. -/
def emptyStyleFeatures : StyleFeatures :=
  { vocabulary := []
    sentenceLength := 0
    emojiUsage := 0
    tone := ""
    punctuation := []
    commonPhrases := [] }

/-- Lookup of a style row by (conversation id, user id). -/
def getStyleStore : List ((Nat × String) × Style) → Nat → String → Option Style
  | [], _, _ => none
  | (k, st) :: rest, cid, uid =>
    if k = (cid, uid) then some st else getStyleStore rest cid uid

/-- Upsert of a style row by (conversation id, user id). -/
def putStyle : List ((Nat × String) × Style) → Nat → String → Style →
    List ((Nat × String) × Style)
  | [], cid, uid, st => [((cid, uid), st)]
  | (k, t) :: rest, cid, uid, st =>
    if k = (cid, uid) then ((cid, uid), st) :: rest
    else (k, t) :: putStyle rest cid uid st

/-- `GetOrCreateStyle`: return the stored row or lazily create the empty
one. -/
def GetOrCreateStyle (store : List ((Nat × String) × Style)) (cid : Nat)
    (uid : String) (now : Int) : Style × List ((Nat × String) × Style) :=
  match getStyleStore store cid uid with
  | some st => (st, store)
  | none =>
    let st : Style :=
      { conversationID := cid
        userID := uid
        features := emptyStyleFeatures
        description := ""
        lastMessageCount := 0
        lastUpdatedAt := now }
    (st, putStyle store cid uid st)

/-- `ShouldUpdateStyle` from internal/style/style.go lines 67-78: false
when style learning is disabled, else the count threshold alone decides
(no time dimension). -/
def ShouldUpdateStyle (cfg : StyleConfig) (st : Style)
    (currentMessageCount : Int) : Bool :=
  if !cfg.enabled then false
  else if currentMessageCount - st.lastMessageCount ≥ cfg.updateThresholdMessages then true
  else false

/-- `UpdateStyle` from internal/style/style.go lines 81-129: no-op when
disabled; filter the caller's messages down to those authored by `uid`;
no-op when none remain; otherwise analyse, render, and upsert the row
with `lastMessageCount` set to the number of *filtered* messages.  JSON
serialization is modelled as storing the feature record itself; the
database `Save` as the pure `putStyle`.  The Go error paths (marshal and
database failures) cannot occur in the pure model, so the function
returns just the store. -/
def UpdateStyle (cfg : StyleConfig) (store : List ((Nat × String) × Style))
    (cid : Nat) (uid : String) (msgs : List Message) (now : Int) :
    List ((Nat × String) × Style) :=
  if !cfg.enabled then store
  else
    let userMessages := msgs.filter (fun m => m.senderID == uid)
    if userMessages.length = 0 then store
    else
      let features := analyzeStyle userMessages
      let got := GetOrCreateStyle store cid uid now
      let st1 : Style :=
        { got.1 with
          features := features
          description := generateDescription features
          lastMessageCount := (userMessages.length : Int)
          lastUpdatedAt := now }
      putStyle got.2 cid uid st1

/-! ### Autocomplete engine (src/unnamed/part_002, package autocomplete) -/

/-- `config.AutocompleteConfig`, restricted to the fields `GetSuggestions`
reads. -/
structure AutocompleteConfig where
  minTriggerLength : Int
  suggestionCount : Int

/-- An autocomplete request; `input` is the rune sequence of the typed
text. -/
structure AutocompleteRequest where
  conversationID : String
  senderID : String
  input : List Char
  maxSuggestions : Int
deriving DecidableEq

/-- An autocomplete response. -/
structure AutocompleteResponse where
  suggestions : List String
  contextUsed : String
deriving DecidableEq

/-- The observable side effects of one `GetSuggestions` call, in the order
the source performs them: the conversation lookup, the context build, the
completion-provider call. -/
inductive AutocompleteEffect where
  | readConversation
  | buildContext
  | completeCall
deriving DecidableEq

/-- The collaborators of the engine: the conversation lookup (returning
the internal id), the context assembler, and the completion provider. -/
structure AutocompleteEnv where
  lookupConversation : String → Option Nat
  buildContext : Nat → String → List Char → Except String String
  complete : String → List Char → Except String (List String)

/-- `GetSuggestions` from src/unnamed/part_002 lines 36-82, with its
side effects recorded in a trace.  An input shorter than the minimum
trigger length returns the empty response before any effect. -/
def GetSuggestions (cfg : AutocompleteConfig) (env : AutocompleteEnv)
    (req : AutocompleteRequest) :
    Except String AutocompleteResponse × List AutocompleteEffect :=
  if (req.input.length : Int) < cfg.minTriggerLength then
    (Except.ok { suggestions := [], contextUsed := "" }, [])
  else
    match env.lookupConversation req.conversationID with
    | none =>
      (Except.error "conversation lookup failed", [AutocompleteEffect.readConversation])
    | some convID =>
      match env.buildContext convID req.senderID req.input with
      | Except.error e =>
        (Except.error e,
          [AutocompleteEffect.readConversation, AutocompleteEffect.buildContext])
      | Except.ok ctx =>
        let maxSuggestions : Int :=
          if req.maxSuggestions > 0 then req.maxSuggestions else cfg.suggestionCount
        match env.complete ctx req.input with
        | Except.error e =>
          (Except.error e,
            [AutocompleteEffect.readConversation, AutocompleteEffect.buildContext,
              AutocompleteEffect.completeCall])
        | Except.ok suggestions =>
          let final :=
            if (suggestions.length : Int) > maxSuggestions then
              suggestions.take maxSuggestions.toNat
            else suggestions
          (Except.ok { suggestions := final, contextUsed := ctx },
            [AutocompleteEffect.readConversation, AutocompleteEffect.buildContext,
              AutocompleteEffect.completeCall])

/-! ### Debounce scheduler (src/unnamed/part_002, `GetSuggestionsWithDebounce`)

The scheduler is modelled as a state machine for one (conversation,
sender) key.  A `time.AfterFunc` timer is a record of the request it will
serve and whether `Stop` has been called on it; the `sync.Map` entry is
the index of the most recently installed timer.  The claim's scenario —
rapid successive calls inside one debounce window — corresponds to a run
of request steps followed by the elapse of the window, at which every
installed timer fires in installation order unless it was stopped. -/

/-- One installed `time.AfterFunc` timer for the key. -/
structure DebounceTimer (Req : Type) where
  req : Req
  stopped : Bool

/-- The per-key scheduler state: every timer installed so far (in
installation order), the current `debounceMap` entry, and the requests
the completion path has been invoked with. -/
structure DebounceState (Req : Type) where
  timers : List (DebounceTimer Req)
  entry : Option Nat
  calls : List Req

/-- The idle state: no timer, no map entry, no completion call. -/
def debounceInit (Req : Type) : DebounceState Req :=
  { timers := [], entry := none, calls := [] }

/-- `timer.Stop()` on the timer at index `i`. -/
def stopTimer (ts : List (DebounceTimer Req)) (i : Nat) : List (DebounceTimer Req) :=
  match ts.get? i with
  | some t => ts.set i { t with stopped := true }
  | none => ts

/-- One incoming request (lines 85-111): stop the loaded pending timer if
the map holds one, install a fresh timer for `r`, and store its index. -/
def debounceRequest (st : DebounceState Req) (r : Req) : DebounceState Req :=
  let ts1 :=
    match st.entry with
    | some i => stopTimer st.timers i
    | none => st.timers
  { timers := ts1 ++ [{ req := r, stopped := false }]
    entry := some ts1.length
    calls := st.calls }

/-- The firing of one timer: a stopped timer's callback never runs; a
live one invokes the (non-debounced) completion path with its request and
deletes the key's map entry. -/
def fireStep (s : DebounceState Req) (t : DebounceTimer Req) : DebounceState Req :=
  if t.stopped then s
  else
    { timers := s.timers
      entry := none
      calls := s.calls ++ [t.req] }

/-- The elapse of the debounce window after the last request: all
installed timers reach their deadline in installation order. -/
def debounceElapse (st : DebounceState Req) : DebounceState Req :=
  st.timers.foldl fireStep st

/-- A burst of requests processed from the idle state. -/
def debounceRun (Req : Type) (rs : List Req) : DebounceState Req :=
  rs.foldl debounceRequest (debounceInit Req)

/-! ### Concrete evaluation inputs -/

/-- A small over-budget context that contains the history header. -/
def ctxC1 : List Char := "XY=== 近期对话历史 ===".data

/-- An existing summary row. -/
def summaryW : Summary :=
  { conversationID := 1
    prompt := "old"
    keyInfo := "[]"
    lastMessageCount := 3
    lastUpdatedAt := 0
    version := 4 }

/-- A store holding `summaryW` for conversation 1. -/
def storeSummaryW : List (Nat × Summary) := [(1, summaryW)]

/-- A summarization provider that always succeeds. -/
def llmOkW : SummaryProvider := fun _ _ => Except.ok ("newP", "newK")

/-- A two-message history. -/
def msgsSummaryW : List Message :=
  [{ senderID := "a", content := "x".data },
    { senderID := "b", content := "y".data }]

/-- An autocomplete configuration with trigger length 2. -/
def cfgAutoW : AutocompleteConfig :=
  { minTriggerLength := 2, suggestionCount := 5 }

/-- Collaborators that would fail loudly if ever consulted. -/
def envAutoW : AutocompleteEnv :=
  { lookupConversation := fun _ => none
    buildContext := fun _ _ _ => Except.error "unused"
    complete := fun _ _ => Except.error "unused" }

/-- A one-rune request, below the trigger length. -/
def reqAutoW : AutocompleteRequest :=
  { conversationID := "c1"
    senderID := "u"
    input := "h".data
    maxSuggestions := 0 }

/-- An enabled style configuration. -/
def cfgStyleOnW : StyleConfig := { enabled := true, updateThresholdMessages := 10 }

/-- A disabled style configuration. -/
def cfgStyleOffW : StyleConfig := { enabled := false, updateThresholdMessages := 10 }

/-- Messages of which exactly one is authored by user "u". -/
def msgsStyleW : List Message :=
  [{ senderID := "u", content := "hi hi".data },
    { senderID := "v", content := "yo".data }]

/-- A stored style row for (1, "u") with `lastMessageCount = 5`. -/
def styleRowW : Style :=
  { conversationID := 1
    userID := "u"
    features := emptyStyleFeatures
    description := ""
    lastMessageCount := 5
    lastUpdatedAt := 0 }

/-- A store holding `styleRowW`. -/
def storeStyleW : List ((Nat × String) × Style) := [((1, "u"), styleRowW)]

/-- A single message whose text ends in the sentence separator, producing
an empty trailing segment. -/
def msgsSentenceW : List Message := [{ senderID := "u", content := "a。".data }]

/-- A single message with one qualifying vocabulary token. -/
def msgsVocabW : List Message := [{ senderID := "u", content := "hi hi".data }]

/-- The non-empty sentence segments of all messages, as claim C8 counts
them. -/
def claimedSegs (msgs : List Message) : List (List Char) :=
  (msgs.map (fun m =>
    (splitOnPred (fun c => c == sentenceSep) m.content).filter
      (fun s => !s.isEmpty))).flatten

/-- The average sentence length exactly as claim C8 words it: the summed
rune length of the non-empty segments divided by the number of those
non-empty segments. -/
def claimedSentenceLength (msgs : List Message) : ℚ :=
  if 0 < (claimedSegs msgs).length then
    (((claimedSegs msgs).map List.length).sum : ℚ) / ((claimedSegs msgs).length : ℚ)
  else 0

/-- Summed rune length of every segment of every message: the rune count
of the text minus the number of separator occurrences (empty segments
contribute nothing, so this also sums the non-empty segments). -/
def runeLenMinusSeps (msgs : List Message) : Nat :=
  (msgs.map (fun m =>
    m.content.length - m.content.countP (fun c => c == sentenceSep))).sum

/-- Total number of segments the sentence split produces over all
messages, empty segments included: per message, one more than the number
of separator occurrences. -/
def totalSegments (msgs : List Message) : Nat :=
  (msgs.map (fun m =>
    m.content.countP (fun c => c == sentenceSep) + 1)).sum

/-! ### Theorems -/

theorem findMarker_le_length (marker s : List Char) (i : Nat)
    (h : findMarker marker s = some i) : i ≤ s.length := by
  induction s generalizing i with
  | nil =>
    unfold findMarker at h
    split at h
    · cases h; exact Nat.le_refl 0
    · cases h
  | cons c cs ih =>
    unfold findMarker at h
    split at h
    · cases h; exact Nat.zero_le _
    · obtain ⟨j, hj, rfl⟩ := Option.map_eq_some'.mp h
      simpa using Nat.succ_le_succ (ih j hj)

/-- Claim C1: for every context whose rune length exceeds the budget and
that contains the history header, `truncateContext` keeps everything
before the header verbatim; when the budget left after that prefix minus
the 100-rune headroom is non-positive the entire history section is
replaced by the truncation notice, and otherwise exactly the leading
span of the history section that fits is kept, followed by the notice —
the summary and style prefix is never shortened. -/
theorem truncateContext_keeps_summary_style (context : List Char) (maxLength i : Nat)
    (hover : maxLength < context.length)
    (hfind : findMarker historyHeader context = some i) :
    truncateContext context maxLength =
      context.take i ++
        (if (maxLength : Int) - (i : Int) - 100 ≤ 0 then truncNotice
         else (context.drop i).take ((maxLength : Int) - (i : Int) - 100).toNat ++
           truncNotice) := by
  have hi : i ≤ context.length := findMarker_le_length _ _ _ hfind
  have hto : (context.take i).length = i := by
    simp [List.length_take, Nat.min_eq_left hi]
  have hdo : (context.drop i).length = context.length - i := by
    simp [List.length_drop]
  unfold truncateContext
  rw [if_neg (by omega)]
  split
  · next heq => rw [hfind] at heq; cases heq
  · next j heq =>
    rw [hfind] at heq
    obtain rfl : j = i := by injection heq with h; exact h.symm
    rw [hto, hdo]
    by_cases h1 : (maxLength : Int) - (j : Int) - 100 ≤ 0
    · rw [if_pos h1, if_pos h1]
    · rw [if_neg h1, if_neg h1]
      rw [if_pos (by omega : ((context.length - j : Nat) : Int) >
        (maxLength : Int) - (j : Int) - 100)]
      rw [List.append_assoc]

theorem truncateContext_keeps_summary_style_witness :
    truncateContext ctxC1 10 =
      ctxC1.take 2 ++
        (if (10 : Int) - (2 : Int) - 100 ≤ 0 then truncNotice
         else (ctxC1.drop 2).take (((10 : Int) - (2 : Int) - 100).toNat) ++
           truncNotice) :=
  truncateContext_keeps_summary_style ctxC1 10 2 (by decide) (by decide)

/-- A scheduler state in which one burst of requests, the last of them
`r`, has been processed: every earlier timer is stopped, the single live
timer holds `r`, the map entry points at it, and no completion call has
fired yet. -/
def coalesced (st : DebounceState Req) (r : Req) : Prop :=
  ∃ ts, st.timers = ts ++ [{ req := r, stopped := false }] ∧
    (∀ t ∈ ts, t.stopped = true) ∧ st.entry = some ts.length ∧ st.calls = []

theorem set_concat_self (l : List α) (a b : α) :
    (l ++ [a]).set l.length b = l ++ [b] := by
  induction l with
  | nil => rfl
  | cons x xs ih => simp [List.set, ih]

theorem stopTimer_concat {Req : Type} (ts : List (DebounceTimer Req)) (r : Req) :
    stopTimer (ts ++ [{ req := r, stopped := false }]) ts.length =
      ts ++ [{ req := r, stopped := true }] := by
  unfold stopTimer
  rw [List.get?_concat_length]
  exact set_concat_self ts _ _

theorem coalesced_first (Req : Type) (r : Req) :
    coalesced (debounceRequest (debounceInit Req) r) r := by
  refine ⟨[], rfl, by simp, rfl, rfl⟩

theorem coalesced_request {Req : Type} {st : DebounceState Req} {r : Req}
    (h : coalesced st r) (r' : Req) :
    coalesced (debounceRequest st r') r' := by
  obtain ⟨ts, hts, hstop, hentry, hcalls⟩ := h
  obtain ⟨tms, ent, cls⟩ := st
  dsimp only at hts hentry hcalls
  subst hts hentry hcalls
  refine ⟨ts ++ [{ req := r, stopped := true }], ?_, ?_, ?_, rfl⟩
  · show stopTimer (ts ++ [{ req := r, stopped := false }]) ts.length ++
      [{ req := r', stopped := false }] = _
    rw [stopTimer_concat, List.append_assoc]
  · intro t ht
    rcases List.mem_append.mp ht with h1 | h1
    · exact hstop t h1
    · simp at h1; rw [h1]
  · show some (stopTimer (ts ++ [{ req := r, stopped := false }]) ts.length).length = _
    rw [stopTimer_concat]

theorem coalesced_run {Req : Type} (rest : List Req) :
    ∀ (st : DebounceState Req) (r : Req), coalesced st r →
      coalesced (rest.foldl debounceRequest st) (rest.getLastD r) := by
  induction rest with
  | nil => intro st r h; exact h
  | cons a l ih =>
    intro st r h
    rw [List.foldl_cons, List.getLastD_cons]
    exact ih _ a (coalesced_request h a)

theorem fire_skips_stopped {Req : Type} (ts : List (DebounceTimer Req))
    (s : DebounceState Req) (h : ∀ t ∈ ts, t.stopped = true) :
    ts.foldl fireStep s = s := by
  induction ts generalizing s with
  | nil => rfl
  | cons t ts ih =>
    rw [List.foldl_cons]
    have hst : fireStep s t = s := by
      unfold fireStep
      rw [if_pos (h t (List.mem_cons_self t ts))]
    rw [hst]
    exact ih s (fun u hu => h u (List.mem_cons_of_mem t hu))

theorem elapse_calls {Req : Type} {st : DebounceState Req} {r : Req}
    (h : coalesced st r) : (debounceElapse st).calls = [r] := by
  obtain ⟨ts, hts, hstop, hentry, hcalls⟩ := h
  unfold debounceElapse
  rw [hts, List.foldl_append, fire_skips_stopped ts st hstop]
  show (fireStep st { req := r, stopped := false }).calls = [r]
  unfold fireStep
  rw [if_neg (by simp)]
  simp [hcalls]

theorem getLast?_cons_eq (a : α) (l : List α) :
    (a :: l).getLast? = some (l.getLastD a) := by
  induction l generalizing a with
  | nil => rfl
  | cons b t ih => rw [List.getLastD_cons, List.getLast?_cons_cons, ih]

/-- Claim C2: for every burst of rapid successive requests to the
debounced path for one (conversation, sender) key inside one debounce
window, each new request stops the key's pending timer before installing
its own, so that when the window elapses exactly one completion-provider
invocation results, carrying the last request's input — in particular a
burst of three requests yields one call with the third input. -/
theorem debounce_coalesces_to_last (Req : Type) (rs : List Req) (r : Req)
    (h : rs.getLast? = some r) :
    (debounceElapse (debounceRun Req rs)).calls = [r] := by
  match rs with
  | [] => cases h
  | a :: l =>
    rw [getLast?_cons_eq] at h
    obtain rfl : l.getLastD a = r := by injection h
    unfold debounceRun
    rw [List.foldl_cons]
    exact elapse_calls (coalesced_run l _ a (coalesced_first Req a))

theorem debounce_coalesces_to_last_witness :
    (debounceElapse (debounceRun Nat [1, 2, 3])).calls = [3] :=
  debounce_coalesces_to_last Nat [1, 2, 3] 3 rfl

theorem getSummaryStore_putSummary (store : List (Nat × Summary)) (cid : Nat)
    (s : Summary) : getSummaryStore (putSummary store cid s) cid = some s := by
  induction store with
  | nil => simp [putSummary, getSummaryStore]
  | cons p rest ih =>
    obtain ⟨c, t⟩ := p
    by_cases hc : c = cid
    · simp [putSummary, getSummaryStore, hc]
    · simp [putSummary, getSummaryStore, hc, ih]

/-- Claim C3: for a conversation with an existing summary row,
`UpdateSummary` on provider success stores exactly the provider's prompt
and key information, sets the last-refresh message count to the length of
the given message list and the timestamp to now, and bumps the version by
one; on provider error it reports the error and leaves the store
untouched. -/
theorem updateSummary_overwrite_or_abort (llm : SummaryProvider)
    (store : List (Nat × Summary)) (cid : Nat) (msgs : List Message) (now : Int)
    (s : Summary) (hex : getSummaryStore store cid = some s) :
    (∀ p k, llm msgs s = Except.ok (p, k) →
      (UpdateSummary llm store cid msgs now).2 = none ∧
      getSummaryStore (UpdateSummary llm store cid msgs now).1 cid =
        some { s with
          prompt := p
          keyInfo := k
          lastMessageCount := (msgs.length : Int)
          lastUpdatedAt := now
          version := s.version + 1 }) ∧
    (∀ e, llm msgs s = Except.error e →
      UpdateSummary llm store cid msgs now = (store, some e)) := by
  have hgot : GetOrCreateSummary store cid now = (s, store) := by
    unfold GetOrCreateSummary
    rw [hex]
  constructor
  · intro p k hok
    unfold UpdateSummary
    rw [hgot]
    dsimp only
    rw [hok]
    exact ⟨rfl, getSummaryStore_putSummary store cid _⟩
  · intro e herr
    unfold UpdateSummary
    rw [hgot]
    dsimp only
    rw [herr]

theorem updateSummary_overwrite_or_abort_witness :
    (UpdateSummary llmOkW storeSummaryW 1 msgsSummaryW 5).2 = none ∧
    getSummaryStore (UpdateSummary llmOkW storeSummaryW 1 msgsSummaryW 5).1 1 =
      some { summaryW with
        prompt := "newP"
        keyInfo := "newK"
        lastMessageCount := (msgsSummaryW.length : Int)
        lastUpdatedAt := 5
        version := summaryW.version + 1 } :=
  (updateSummary_overwrite_or_abort llmOkW storeSummaryW 1 msgsSummaryW 5 summaryW
    rfl).1 "newP" "newK" rfl

/-- Claim C4: `ShouldUpdateSummary` is false whenever auto-update is
disabled, and otherwise true exactly when the new-message delta reaches
the count threshold OR the elapsed time reaches the hour threshold;
either branch alone suffices. -/
theorem shouldUpdateSummary_iff (cfg : SummaryConfig) (s : Summary)
    (currentMessageCount now : Int) :
    ShouldUpdateSummary cfg s currentMessageCount now = true ↔
      (cfg.autoUpdate = true ∧
        (currentMessageCount - s.lastMessageCount ≥ cfg.updateThresholdMessages ∨
          now - s.lastUpdatedAt ≥ cfg.updateThresholdHours * nsPerHour)) := by
  unfold ShouldUpdateSummary
  cases h : cfg.autoUpdate <;> split_ifs <;> simp_all

/-- Claim C5: `ShouldUpdateStyle` is false when style learning is
disabled, otherwise true exactly when the message-count delta reaches the
update threshold; the profile's last-updated timestamp plays no role. -/
theorem shouldUpdateStyle_iff (cfg : StyleConfig) (st : Style)
    (currentMessageCount : Int) :
    (ShouldUpdateStyle cfg st currentMessageCount = true ↔
      (cfg.enabled = true ∧
        currentMessageCount - st.lastMessageCount ≥ cfg.updateThresholdMessages)) ∧
    (∀ t : Int,
      ShouldUpdateStyle cfg { st with lastUpdatedAt := t } currentMessageCount =
        ShouldUpdateStyle cfg st currentMessageCount) := by
  constructor
  · unfold ShouldUpdateStyle
    cases h : cfg.enabled <;> split_ifs <;> simp_all
  · intro t
    rfl

/-- Claim C6: an input shorter than the minimum trigger length makes
`GetSuggestions` return an empty suggestion list with no error, with an
empty effect trace — no conversation read, no context build, no
completion-provider call. -/
theorem getSuggestions_below_trigger (cfg : AutocompleteConfig)
    (env : AutocompleteEnv) (req : AutocompleteRequest)
    (h : (req.input.length : Int) < cfg.minTriggerLength) :
    GetSuggestions cfg env req =
      (Except.ok { suggestions := [], contextUsed := "" }, []) := by
  unfold GetSuggestions
  rw [if_pos h]

theorem getSuggestions_below_trigger_witness :
    GetSuggestions cfgAutoW envAutoW reqAutoW =
      (Except.ok { suggestions := [], contextUsed := "" }, []) :=
  getSuggestions_below_trigger cfgAutoW envAutoW reqAutoW (by decide)

theorem classifyTone_cases (sl eu : ℚ) :
    (classifyTone sl eu = "casual" ↔ sl < 10 ∧ eu > 2) ∧
    (classifyTone sl eu = "formal" ↔ ¬(sl < 10 ∧ eu > 2) ∧ sl > 30) ∧
    (classifyTone sl eu = "friendly" ↔ ¬(sl < 10 ∧ eu > 2) ∧ ¬sl > 30) := by
  unfold classifyTone
  split_ifs with h1 h2 <;> refine ⟨?_, ?_, ?_⟩ <;> simp_all

/-- Claim C7: the analysed tone is "casual" exactly when the average
sentence length is strictly below 10 and the emoji ratio strictly above
2; otherwise "formal" exactly when the average length is strictly above
30; otherwise "friendly". -/
theorem analyzeStyle_tone_cases (msgs : List Message) :
    ((analyzeStyle msgs).tone = "casual" ↔
      (analyzeStyle msgs).sentenceLength < 10 ∧ (analyzeStyle msgs).emojiUsage > 2) ∧
    ((analyzeStyle msgs).tone = "formal" ↔
      ¬((analyzeStyle msgs).sentenceLength < 10 ∧ (analyzeStyle msgs).emojiUsage > 2) ∧
        (analyzeStyle msgs).sentenceLength > 30) ∧
    ((analyzeStyle msgs).tone = "friendly" ↔
      ¬((analyzeStyle msgs).sentenceLength < 10 ∧ (analyzeStyle msgs).emojiUsage > 2) ∧
        ¬(analyzeStyle msgs).sentenceLength > 30) :=
  classifyTone_cases (sentenceLengthOf msgs) (emojiUsageOf msgs)

theorem splitOnPred_ne_nil (p : Char → Bool) (s : List Char) :
    splitOnPred p s ≠ [] := by
  cases s with
  | nil => simp [splitOnPred]
  | cons c cs =>
    unfold splitOnPred
    cases h : splitOnPred p cs with
    | nil => simp
    | cons seg rest =>
      by_cases hp : p c <;> simp [hp]

theorem splitOnPred_length (p : Char → Bool) (s : List Char) :
    (splitOnPred p s).length = s.countP p + 1 := by
  induction s with
  | nil => simp [splitOnPred]
  | cons c cs ih =>
    unfold splitOnPred
    cases h : splitOnPred p cs with
    | nil => exact absurd h (splitOnPred_ne_nil p cs)
    | cons seg rest =>
      rw [h] at ih
      by_cases hp : p c <;> simp_all [List.countP_cons]

theorem splitOnPred_sum_length (p : Char → Bool) (s : List Char) :
    ((splitOnPred p s).map List.length).sum + s.countP p = s.length := by
  induction s with
  | nil => simp [splitOnPred]
  | cons c cs ih =>
    unfold splitOnPred
    cases h : splitOnPred p cs with
    | nil => exact absurd h (splitOnPred_ne_nil p cs)
    | cons seg rest =>
      rw [h] at ih
      by_cases hp : p c <;>
        simp_all [List.countP_cons] <;> omega

theorem filter_isEmpty_sum_length (L : List (List Char)) :
    ((L.filter (fun s => !s.isEmpty)).map List.length).sum =
      (L.map List.length).sum := by
  induction L with
  | nil => rfl
  | cons x xs ih =>
    cases x with
    | nil => simpa [List.filter] using ih
    | cons c cs => simp [List.filter, ih]

theorem sentenceTotalLength_eq (msgs : List Message) :
    sentenceTotalLength msgs = runeLenMinusSeps msgs := by
  unfold sentenceTotalLength runeLenMinusSeps
  induction msgs with
  | nil => rfl
  | cons m rest ih =>
    simp only [List.map_cons, List.sum_cons, ih]
    have h1 := filter_isEmpty_sum_length (splitOnPred (fun c => c == sentenceSep) m.content)
    have h2 := splitOnPred_sum_length (fun c => c == sentenceSep) m.content
    omega

theorem sentenceCount_eq (msgs : List Message) :
    sentenceCount msgs = totalSegments msgs := by
  unfold sentenceCount totalSegments
  induction msgs with
  | nil => rfl
  | cons m rest ih =>
    simp only [List.map_cons, List.sum_cons, ih, splitOnPred_length]

/-- Claim C8 as amended: the analysed average sentence length is the
summed rune length of the non-empty segments divided by the TOTAL number
of segments the split produces — per message one more than the number of
separator occurrences, empty segments included (the source counts every
segment in the denominator, not only the non-empty ones). -/
theorem analyzeStyle_sentenceLength_total_segments (msgs : List Message)
    (h : msgs ≠ []) :
    (analyzeStyle msgs).sentenceLength =
      (runeLenMinusSeps msgs : ℚ) / (totalSegments msgs : ℚ) := by
  have hsc : 0 < sentenceCount msgs := by
    rw [sentenceCount_eq]
    unfold totalSegments
    cases msgs with
    | nil => exact absurd rfl h
    | cons m rest => simp [List.sum_cons]
  show sentenceLengthOf msgs = _
  unfold sentenceLengthOf
  rw [if_pos hsc, sentenceTotalLength_eq, sentenceCount_eq]

theorem analyzeStyle_sentenceLength_total_segments_witness :
    (analyzeStyle msgsSentenceW).sentenceLength =
      (runeLenMinusSeps msgsSentenceW : ℚ) / (totalSegments msgsSentenceW : ℚ) :=
  analyzeStyle_sentenceLength_total_segments msgsSentenceW (by decide)

/-- Claim C8 as stated is false: for the single message "a。" the split
yields the non-empty segment "a" and one empty trailing segment, so the
claim's value (1 non-empty rune / 1 non-empty segment = 1) differs from
the source's value (1 rune / 2 segments). -/
theorem analyzeStyle_sentenceLength_claim_false :
    (analyzeStyle msgsSentenceW).sentenceLength ≠
      claimedSentenceLength msgsSentenceW := by
  have h1 : sentenceTotalLength msgsSentenceW = 1 := by decide
  have h2 : sentenceCount msgsSentenceW = 2 := by decide
  have h3 : ((claimedSegs msgsSentenceW).map List.length).sum = 1 := by decide
  have h4 : (claimedSegs msgsSentenceW).length = 1 := by decide
  show sentenceLengthOf msgsSentenceW ≠ claimedSentenceLength msgsSentenceW
  unfold sentenceLengthOf claimedSentenceLength
  rw [h1, h2, h3, h4]
  norm_num

/-- Claim C9, the code's behaviour at the failing input: the single
message "hi hi" produces exactly one qualifying token, "hi", with count
2, yet the stored vocabulary is empty — `getTopN`'s loop bound
`i < len(words)-1 && i < n` stops before recording the word at the final
position, so one word is always dropped whenever at most 10 distinct
qualifying tokens exist, and everything is dropped when there is exactly
one. -/
theorem analyzeStyle_vocabulary_drops_last :
    wordFreq msgsVocabW = [("hi".data, 2)] ∧
    (analyzeStyle msgsVocabW).vocabulary = [] := by
  constructor
  · decide
  · decide

theorem getStyleStore_putStyle (store : List ((Nat × String) × Style))
    (cid : Nat) (uid : String) (st : Style) :
    getStyleStore (putStyle store cid uid st) cid uid = some st := by
  induction store with
  | nil => simp [putStyle, getStyleStore]
  | cons p rest ih =>
    obtain ⟨k, t⟩ := p
    by_cases hk : k = (cid, uid)
    · simp [putStyle, getStyleStore, hk]
    · simp [putStyle, getStyleStore, hk, ih]

/-- Claim C10 as amended: when style learning is enabled, a successful
`UpdateStyle` call whose input contains at least one message authored by
the user stores a profile whose `lastMessageCount` is the number of
messages authored by that user — not the total input length — along with
the analysed features and description and the refresh timestamp; and when
no input message is authored by the user the call succeeds and leaves the
store unchanged. -/
theorem updateStyle_stores_filtered_count (cfg : StyleConfig)
    (store : List ((Nat × String) × Style)) (cid : Nat) (uid : String)
    (msgs : List Message) (now : Int) :
    (cfg.enabled = true →
      (msgs.filter (fun m => m.senderID == uid)).length ≠ 0 →
      ∃ st, getStyleStore (UpdateStyle cfg store cid uid msgs now) cid uid = some st ∧
        st.lastMessageCount = ((msgs.filter (fun m => m.senderID == uid)).length : Int) ∧
        st.lastUpdatedAt = now ∧
        st.features = analyzeStyle (msgs.filter (fun m => m.senderID == uid)) ∧
        st.description =
          generateDescription (analyzeStyle (msgs.filter (fun m => m.senderID == uid)))) ∧
    ((msgs.filter (fun m => m.senderID == uid)).length = 0 →
      UpdateStyle cfg store cid uid msgs now = store) := by
  constructor
  · intro hen hne
    unfold UpdateStyle
    rw [hen]
    simp only [Bool.not_true, Bool.false_eq_true, if_false]
    rw [if_neg hne]
    exact ⟨_, getStyleStore_putStyle _ _ _ _, rfl, rfl, rfl, rfl⟩
  · intro hz
    unfold UpdateStyle
    cases hen : cfg.enabled
    · simp
    · simp [hz]

theorem updateStyle_stores_filtered_count_witness :
    ∃ st, getStyleStore (UpdateStyle cfgStyleOnW [] 1 "u" msgsStyleW 7) 1 "u" = some st ∧
      st.lastMessageCount = ((msgsStyleW.filter (fun m => m.senderID == "u")).length : Int) ∧
      st.lastUpdatedAt = 7 ∧
      st.features = analyzeStyle (msgsStyleW.filter (fun m => m.senderID == "u")) ∧
      st.description =
        generateDescription (analyzeStyle (msgsStyleW.filter (fun m => m.senderID == "u"))) :=
  (updateStyle_stores_filtered_count cfgStyleOnW [] 1 "u" msgsStyleW 7).1 rfl (by decide)

/-- Claim C10 as stated is false at a concrete input: with style learning
disabled, `UpdateStyle` succeeds on an input containing one message
authored by "u", yet the stored profile keeps `lastMessageCount = 5`
rather than being set to 1. -/
theorem updateStyle_claim_counterexample :
    UpdateStyle cfgStyleOffW storeStyleW 1 "u" msgsStyleW 9 = storeStyleW ∧
    (msgsStyleW.filter (fun m => m.senderID == "u")).length = 1 ∧
    getStyleStore storeStyleW 1 "u" = some styleRowW ∧
    styleRowW.lastMessageCount ≠
      ((msgsStyleW.filter (fun m => m.senderID == "u")).length : Int) := by
  refine ⟨rfl, by decide, by decide, by decide⟩

end ChatRecommend
